import Mathlib

/-!
Shallow embedding of `config-builder/build-config.py`: the 6plane address
derivation, interface naming, prefix splicing and config model, together with
the Python `ipaddress` and `int(s, 16)` semantics the script relies on.
-/

set_option maxRecDepth 10000

namespace ZT

/-- An IPv6 network as held by Python `ipaddress.IPv6Network`: a 128-bit
network address together with a prefix length. -/
structure IPv6Net where
  addr : Nat
  plen : Nat
deriving DecidableEq

/-- `IPv6Network((addr, plen))` with the default `strict=True`: the address
must be a valid 128-bit value, the prefix length an integer in `[0, 128]`,
and every bit below the prefix (the host bits) zero. -/
def mkIPv6Network (addr : Int) (plen : Int) : Except String IPv6Net :=
  if 0 ≤ addr ∧ addr ≤ 2 ^ 128 - 1 then
    if 0 ≤ plen ∧ plen ≤ 128 then
      if addr.toNat % 2 ^ (128 - plen.toNat) = 0 then
        Except.ok ⟨addr.toNat, plen.toNat⟩
      else Except.error "has host bits set"
    else Except.error "invalid prefix length"
  else Except.error "address out of range for IPv6"

/-- `net[n]` from CPython `ipaddress._BaseNetwork.__getitem__`: a non-negative
index offsets from the network address, a negative index from the broadcast
address; both raise IndexError when out of range. -/
def getItem (net : IPv6Net) (n : Int) : Except String Nat :=
  let network : Int := net.addr
  let broadcast : Int := net.addr + 2 ^ (128 - net.plen) - 1
  if 0 ≤ n then
    if broadcast < network + n then Except.error "address out of range"
    else Except.ok (network + n).toNat
  else
    if broadcast + (n + 1) < network then Except.error "address out of range"
    else Except.ok (broadcast + (n + 1)).toNat

/-- `net.supernet(new_prefix=k)`: requires `k ≤ plen` and masks the network
address down to the first `k` bits. -/
def supernet (net : IPv6Net) (newPrefix : Nat) : Except String IPv6Net :=
  if net.plen < newPrefix then Except.error "new prefix must be shorter"
  else Except.ok ⟨net.addr - net.addr % 2 ^ (128 - newPrefix), newPrefix⟩

/-- Does the address `a` lie in `net`? (`a in net` for a canonical network.) -/
def addrInNet (net : IPv6Net) (a : Nat) : Prop :=
  net.addr ≤ a ∧ a < net.addr + 2 ^ (128 - net.plen)

instance (net : IPv6Net) (a : Nat) : Decidable (addrInNet net a) := by
  unfold addrInNet; infer_instance

/-- `FixedSizeUInt.__new__`: range-check an integer against `[0, 2^size - 1]`,
returning the value itself (the class is an `int` subclass). -/
def FixedSizeUInt.new (size : Nat) (value : Int) : Except String Int :=
  if 0 ≤ value ∧ value ≤ 2 ^ size - 1 then Except.ok value
  else Except.error "is outside the range"

/-- `NodeID.size` -/
def NodeID.size : Nat := 40

/-- `NetworkID.size` -/
def NetworkID.size : Nat := 64

/-- `mk6plane(nwid, nodeid)`: fold the 64-bit network id to 32 bits, splice
`0xfc / folded / nodeid` into a /80 network, and return the /40 supernet, the
/80 device network and its address at host offset 1. -/
def mk6plane (nwid : Nat) (nodeid : Nat) :
    Except String (IPv6Net × IPv6Net × Nat) :=
  let folded := (nwid ^^^ (nwid >>> (8 * 4))) &&& ((1 <<< (8 * 4)) - 1)
  Except.bind (mkIPv6Network
      (((0xfc <<< (8 * 15)) + (folded <<< (8 * 11)) + (nodeid <<< (8 * 6)) : Nat) : Int) 80)
    (fun net => Except.bind (supernet net 40)
      (fun sup => Except.bind (getItem net 1)
        (fun first => Except.ok (sup, net, first))))

/-! ## Python `int(s, 16)` (ASCII), as used for all hex parsing in the script -/

/-- The six ASCII characters CPython strips as surrounding whitespace: space,
tab, newline, carriage return, vertical tab, form feed (by codepoint). -/
def isPySpace (c : Char) : Bool :=
  decide (c.toNat = 32 ∨ c.toNat = 9 ∨ c.toNat = 10 ∨ c.toNat = 13 ∨
    c.toNat = 11 ∨ c.toNat = 12)

/-- Value of a hexadecimal digit character (`0`-`9`, `a`-`f`, `A`-`F`, by
codepoint), `none` for anything else. -/
def hexDigitVal (c : Char) : Option Nat :=
  if 48 ≤ c.toNat ∧ c.toNat ≤ 57 then some (c.toNat - 48)
  else if 97 ≤ c.toNat ∧ c.toNat ≤ 102 then some (c.toNat - 97 + 10)
  else if 65 ≤ c.toNat ∧ c.toNat ≤ 70 then some (c.toNat - 65 + 10)
  else none

/-- The digit run of a CPython base-16 literal: hex digits with single
underscores between digits (`lead` allows one underscore right after a `0x`
prefix), then optional trailing whitespace. `acc` is the value read so far,
`seenDigit` whether any digit was read, `pend` whether the previous character
was an underscore (which must be followed by a digit). -/
def hexRun : Nat → Bool → Bool → Bool → List Char → Option Nat
  | acc, seenDigit, pend, _, [] =>
      if pend then none else if seenDigit then some acc else none
  | acc, seenDigit, pend, lead, c :: rest =>
      match hexDigitVal c with
      | some v => hexRun (acc * 16 + v) true false false rest
      | none =>
        if c = '_' then
          if pend then none
          else if seenDigit || lead then hexRun acc seenDigit true false rest
          else none
        else
          if pend then none
          else if seenDigit && isPySpace c && rest.all isPySpace then some acc
          else none

/-- Strip an optional leading sign, returning the sign factor. -/
def stripSign : List Char → Int × List Char
  | '+' :: r => (1, r)
  | '-' :: r => (-1, r)
  | cs => (1, cs)

/-- Strip an optional `0x`/`0X` base marker, recording whether one was
present (after it, a single leading underscore is allowed). -/
def strip0x : List Char → Bool × List Char
  | '0' :: c :: r => if c = 'x' ∨ c = 'X' then (true, r) else (false, '0' :: c :: r)
  | cs => (false, cs)

/-- CPython `int(s, 16)` on ASCII strings: optional surrounding whitespace,
optional sign, optional `0x`/`0X` prefix, then hex digits with underscore
separators; anything else raises ValueError. -/
def pyIntHex (s : String) : Except String Int :=
  let signed := stripSign (s.toList.dropWhile isPySpace)
  let pref := strip0x signed.2
  match hexRun 0 false false pref.1 pref.2 with
  | some v => Except.ok (signed.1 * (v : Int))
  | none => Except.error "invalid literal for int with base 16"

/-! ## Interface naming: `ifname` -/

/-- `int.to_bytes(len, "big")` for values known to fit: big-endian byte list. -/
def toBytesBE : Nat → Nat → List Nat
  | 0, _ => []
  | k + 1, n => toBytesBE k (n / 256) ++ [n % 256]

/-- The RFC 4648 base-32 alphabet used by `base64.b32encode`. -/
def b32alphabet : List Char := "ABCDEFGHIJKLMNOPQRSTUVWXYZ234567".toList

/-- Encode one 40-bit group as 8 base-32 characters, most significant first. -/
def b32chunk (n : Nat) : List Char :=
  (List.range 8).map (fun i => b32alphabet.getD ((n >>> (5 * (7 - i))) % 32) 'A')

/-- Encode consecutive 5-byte groups; a trailing short group has already been
zero-padded by `b32encode`. -/
def b32groups : List Nat → List Char
  | b0 :: b1 :: b2 :: b3 :: b4 :: rest =>
      b32chunk ((((b0 * 256 + b1) * 256 + b2) * 256 + b3) * 256 + b4) ++ b32groups rest
  | _ => []

/-- How many trailing `=` padding characters a final group of `leftover`
bytes produces in `base64.b32encode`. -/
def b32padCount : Nat → Nat
  | 1 => 6
  | 2 => 4
  | 3 => 3
  | 4 => 1
  | _ => 0

/-- `base64.b32encode`: zero-pad the input to a multiple of 5 bytes, encode
each 5-byte group to 8 alphabet characters, then overwrite the tail with `=`
padding according to the leftover byte count. -/
def b32encode (bs : List Nat) : List Char :=
  let leftover := bs.length % 5
  let padded := bs ++ List.replicate ((5 - leftover) % 5) 0
  let enc := b32groups padded
  let pad := b32padCount leftover
  enc.take (enc.length - pad) ++ List.replicate pad '='

/-- `ifname(nwid, trial)`: fold the network id to 40 bits (note that `+ trial`
binds to the shifted term before the XOR), encode its 5 big-endian bytes in
base-32, lowercase, and prepend `zt`. -/
def ifname (nwid : Nat) (trial : Nat) : Except String String :=
  let nwid40 := (nwid ^^^ ((nwid >>> (8 * 3)) + trial)) &&& ((1 <<< (8 * 5)) - 1)
  if nwid40 < 256 ^ 5 then
    Except.ok ("zt" ++ String.mk ((b32encode (toBytesBE 5 nwid40)).map Char.toLower))
  else Except.error "int too big to convert"

/-! ## Prefix splicing: `config_suffix_append` -/

/-- The polymorphic suffix type of the script, `Union[str, Tuple[str, int]]`:
either a bare hexadecimal string or a pair of a hexadecimal string and an
integer. -/
abbrev Suffix := Sum String (String × Int)

/-- `config_suffix_append(net, suffix)`: for a string, shift its parsed value
just below the parent's prefix and extend the prefix length by four bits per
character; for a pair, use the parsed first component as a raw host offset
and the second component as the absolute prefix length. The result goes
through the strict `IPv6Network` constructor. -/
def config_suffix_append (net : IPv6Net) (suffix : Suffix) : Except String IPv6Net :=
  match suffix with
  | Sum.inl s =>
    Except.bind (pyIntHex s) (fun v =>
      let sh : Int := 128 - (net.plen : Int) - (s.length : Int) * 4
      if sh < 0 then Except.error "negative shift count" else
      Except.bind (getItem net (v * (2 : Int) ^ sh.toNat)) (fun a =>
        mkIPv6Network (a : Int) ((s.length : Int) * 4 + (net.plen : Int))))
  | Sum.inr p =>
    Except.bind (pyIntHex p.1) (fun nsuffix =>
      Except.bind (getItem net nsuffix) (fun a =>
        mkIPv6Network (a : Int) p.2))

/-! ## The config model: `IfaceConfig` and `Config`

`IfaceConfig._parent` in the script is a dataclass field declared with
`field(init=False)`: it is unset until `Config.from_dict` assigns it, and
reading it before that raises AttributeError. We model it as an `Option` of
the owning config's own fields (the back-reference is read only through
`Config.with_prefix`, which uses `node_id`, `network_id` and `suffix`; the
`ifaces` map is never read through it, so the model stays acyclic). -/

/-- The fields of `Config` that an interface's back-reference is read for. -/
structure ConfigCore where
  version : Int
  node_id : Nat
  network_id : Nat
  suffix : Suffix
deriving DecidableEq

/-- `IfaceConfig`: a suffix, an insertion-ordered static-client table mapping
link-local addresses to hex offset strings, and the `_parent` back-reference. -/
structure IfaceConfig where
  suffix : Suffix
  static_clients : List (Nat × String)
  _parent : Option ConfigCore

/-- `Config.with_prefix`: the config's working subnet, `config_suffix_append`
applied to the 6plane device subnet. -/
def with_prefix_config (c : ConfigCore) : Except String IPv6Net :=
  Except.bind (mk6plane c.network_id c.node_id)
    (fun r => config_suffix_append r.2.1 c.suffix)

/-- `IfaceConfig.with_prefix`: the interface's working subnet; raises
AttributeError when the `_parent` back-reference was never assigned. -/
def with_prefix_iface (i : IfaceConfig) : Except String IPv6Net :=
  match i._parent with
  | none => Except.error "AttributeError"
  | some p =>
    Except.bind (with_prefix_config p)
      (fun parent => config_suffix_append parent i.suffix)

/-- The address lookup `format_client` performs once the working subnet is
known: `subnet[int(suffix, 16)]`. -/
def format_client_net (net : IPv6Net) (suffix : String) : Except String Nat :=
  Except.bind (pyIntHex suffix) (fun v => getItem net v)

/-- `IfaceConfig.format_client(suffix)`: `self.with_prefix[int(suffix, 16)]`. -/
def format_client (i : IfaceConfig) (suffix : String) : Except String Nat :=
  Except.bind (with_prefix_iface i)
    (fun net => format_client_net net suffix)

/-- `IfaceConfig.statics`: one `(link_local, format_client(offset))` pair per
static-client entry, in table order. -/
def statics (i : IfaceConfig) : List (Nat × Except String Nat) :=
  i.static_clients.map (fun e => (e.1, format_client i e.2))

/-- The raw per-interface record before back-reference wiring. -/
structure RawIface where
  suffix : Suffix
  static_clients : List (Nat × String)

/-- The raw top-level record handed to `Config.from_dict`: `node_id` and
`network_id` are hexadecimal strings (dacite type hooks parse them through
`int(value, 16)` and the `NodeID`/`NetworkID` range checks). -/
structure RawConfig where
  version : Int
  node_id : String
  network_id : String
  suffix : Suffix
  ifaces : List (String × RawIface)

/-- The loaded config: the core fields plus the named interface map. -/
structure Config where
  core : ConfigCore
  ifaces : List (String × IfaceConfig)

/-- `Config.from_dict`: check the `Literal[1]` version, parse the ids through
the hex type hooks with their fixed-size range checks, build the interface
map, and then assign every interface's `_parent` back-reference to the owning
config. -/
def Config.from_dict (raw : RawConfig) : Except String Config :=
  if raw.version = 1 then
    Except.bind (pyIntHex raw.node_id) (fun nodeVal =>
      Except.bind (FixedSizeUInt.new NodeID.size nodeVal) (fun nid =>
        Except.bind (pyIntHex raw.network_id) (fun netVal =>
          Except.bind (FixedSizeUInt.new NetworkID.size netVal) (fun nwid =>
            let core : ConfigCore := ⟨raw.version, nid.toNat, nwid.toNat, raw.suffix⟩
            Except.ok ⟨core, raw.ifaces.map
              (fun e => (e.1, ⟨e.2.suffix, e.2.static_clients, some core⟩))⟩))))
  else Except.error "wrong value for version"

/-- Positional value of a string of hexadecimal digit characters. -/
def hexValue (cs : List Char) : Nat :=
  cs.foldl (fun a c => a * 16 + (hexDigitVal c).getD 0) 0

/-- The (value, bits) pair the hex-string branch of `config_suffix_append`
derives from a prefix string: `int(s, 16)` and four bits per character. -/
def hex_prefix_parse (s : String) : Except String (Int × Nat) :=
  Except.bind (pyIntHex s) (fun v => Except.ok (v, 4 * s.length))

/-- The lowercase base-32 alphabet of the `zt[a-z2-7]{8}` pattern. -/
def ztLowerAlphabet : List Char := "abcdefghijklmnopqrstuvwxyz234567".toList

/-! ## Helper lemmas -/

/-- Reduction of `Except.bind` on a success value. -/
theorem ebind_ok {ε α β : Type} (a : α) (f : α → Except ε β) :
    Except.bind (Except.ok a) f = f a := rfl

/-- Reduction of `Except.bind` on an error value. -/
theorem ebind_error {ε α β : Type} (e : ε) (f : α → Except ε β) :
    Except.bind (Except.error e : Except ε α) f = Except.error e := rfl

/-- The strict constructor succeeds on an in-range address with clear host
bits. -/
theorem mkIPv6Network_ok (a p : Nat) (ha : a < 2 ^ 128) (hp : p ≤ 128)
    (hhost : a % 2 ^ (128 - p) = 0) :
    mkIPv6Network (a : Int) (p : Int) = Except.ok ⟨a, p⟩ := by
  have ha' : (a : Int) < 2 ^ 128 := by exact_mod_cast ha
  have hp' : (p : Int) ≤ 128 := by exact_mod_cast hp
  unfold mkIPv6Network
  rw [if_pos (by omega), if_pos (by omega), if_pos (by simpa using hhost)]
  simp

/-- Indexing with an in-range non-negative offset returns the network address
plus the offset. -/
theorem getItem_ok (net : IPv6Net) (n : Nat) (h : n < 2 ^ (128 - net.plen)) :
    getItem net (n : Int) = Except.ok (net.addr + n) := by
  have h' : (n : Int) < 2 ^ (128 - net.plen) := by exact_mod_cast h
  unfold getItem
  rw [if_pos (by positivity), if_neg (by omega)]
  congr 1

/-- `supernet` succeeds whenever the requested prefix is no longer than the
network's. -/
theorem supernet_ok (net : IPv6Net) (k : Nat) (h : k ≤ net.plen) :
    supernet net k = Except.ok ⟨net.addr - net.addr % 2 ^ (128 - k), k⟩ := by
  unfold supernet
  rw [if_neg (by omega)]

/-! ## Lemmas about the hex parser -/

theorem hexDigitVal_lt (c : Char) (v : Nat) (h : hexDigitVal c = some v) : v < 16 := by
  unfold hexDigitVal at h
  split at h
  · cases h; omega
  · split at h
    · cases h; omega
    · split at h
      · cases h; omega
      · cases h

theorem hexRun_lt (cs : List Char) : ∀ acc sd pend lead r,
    hexRun acc sd pend lead cs = some r → r < (acc + 1) * 16 ^ cs.length := by
  induction cs with
  | nil =>
    intro acc sd pend lead r h
    unfold hexRun at h
    split at h
    · cases h
    · split at h
      · cases h
        simp
      · cases h
  | cons c rest ih =>
    intro acc sd pend lead r h
    unfold hexRun at h
    split at h
    · rename_i v hv
      have hr := ih _ _ _ _ _ h
      have hv16 : v < 16 := hexDigitVal_lt c v hv
      calc r < (acc * 16 + v + 1) * 16 ^ rest.length := hr
        _ ≤ ((acc + 1) * 16) * 16 ^ rest.length := by
            have : acc * 16 + v + 1 ≤ (acc + 1) * 16 := by omega
            exact Nat.mul_le_mul_right _ this
        _ = (acc + 1) * 16 ^ (c :: rest).length := by
            rw [List.length_cons, pow_succ]
            ring
    · split at h
      · split at h
        · cases h
        · split at h
          · have hr := ih _ _ _ _ _ h
            calc r < (acc + 1) * 16 ^ rest.length := hr
              _ ≤ (acc + 1) * 16 ^ (c :: rest).length := by
                  apply Nat.mul_le_mul_left
                  apply Nat.pow_le_pow_right (by norm_num)
                  simp
          · cases h
      · split at h
        · cases h
        · split at h
          · cases h
            have hpos : 0 < 16 ^ (c :: rest).length := by positivity
            calc acc < acc + 1 := Nat.lt_succ_self _
              _ ≤ (acc + 1) * 16 ^ (c :: rest).length := Nat.le_mul_of_pos_right _ hpos
          · cases h

theorem stripSign_fst (cs : List Char) : (stripSign cs).1 = 1 ∨ (stripSign cs).1 = -1 := by
  unfold stripSign
  split <;> simp

theorem stripSign_length (cs : List Char) : (stripSign cs).2.length ≤ cs.length := by
  unfold stripSign
  split <;> simp

theorem strip0x_length (cs : List Char) : (strip0x cs).2.length ≤ cs.length := by
  unfold strip0x
  split
  · split <;> simp <;> omega
  · simp

theorem length_dropWhile_le_mine (p : Char → Bool) (l : List Char) :
    (l.dropWhile p).length ≤ l.length := by
  induction l with
  | nil => simp [List.dropWhile]
  | cons a l ih =>
    rw [List.dropWhile_cons]
    split
    · exact Nat.le_trans ih (by simp)
    · simp

theorem pyIntHex_natAbs_lt (s : String) (v : Int) (h : pyIntHex s = Except.ok v) :
    v.natAbs < 16 ^ s.length := by
  unfold pyIntHex at h
  dsimp only at h
  split at h
  · rename_i r hr
    cases h
    have hb := hexRun_lt _ _ _ _ _ _ hr
    rw [show (0 + 1) * 16 ^ (strip0x (stripSign
      (List.dropWhile isPySpace s.toList)).2).2.length =
      16 ^ (strip0x (stripSign (List.dropWhile isPySpace s.toList)).2).2.length
      by ring] at hb
    have hlen : (strip0x (stripSign (s.toList.dropWhile isPySpace)).2).2.length ≤ s.length := by
      calc (strip0x (stripSign (s.toList.dropWhile isPySpace)).2).2.length
          ≤ (stripSign (s.toList.dropWhile isPySpace)).2.length := strip0x_length _
        _ ≤ (s.toList.dropWhile isPySpace).length := stripSign_length _
        _ ≤ s.toList.length := length_dropWhile_le_mine _ _
        _ = s.length := rfl
    have h16 : 16 ^ (strip0x (stripSign (s.toList.dropWhile isPySpace)).2).2.length ≤
        16 ^ s.length := Nat.pow_le_pow_right (by norm_num) hlen
    rcases stripSign_fst (s.toList.dropWhile isPySpace) with hs1 | hs1 <;>
      rw [hs1] <;> simp <;> omega
  · cases h

theorem pyIntHex_toNat_lt (s : String) (v : Int) (h : pyIntHex s = Except.ok v) :
    v.toNat < 2 ^ (4 * s.length) := by
  have h1 := pyIntHex_natAbs_lt s v h
  have h2 : (16 : Nat) ^ s.length = 2 ^ (4 * s.length) := by
    rw [show (16 : Nat) = 2 ^ 4 by norm_num, ← pow_mul]
  omega

theorem hexDigit_not_space (c : Char) (h : (hexDigitVal c).isSome) : isPySpace c = false := by
  unfold hexDigitVal at h
  unfold isPySpace
  rw [decide_eq_false_iff_not]
  split at h
  · omega
  · split at h
    · omega
    · split at h
      · omega
      · simp at h

theorem hexRun_digits (cs : List Char) : ∀ acc,
    (∀ c ∈ cs, (hexDigitVal c).isSome) →
    hexRun acc true false false cs =
      some (cs.foldl (fun a c => a * 16 + (hexDigitVal c).getD 0) acc) := by
  induction cs with
  | nil => intro acc _; rfl
  | cons c rest ih =>
    intro acc hall
    have hc : (hexDigitVal c).isSome := hall c (by simp)
    obtain ⟨v, hv⟩ := Option.isSome_iff_exists.mp hc
    unfold hexRun
    rw [hv]
    dsimp only
    rw [ih _ (fun d hd => hall d (by simp [hd]))]
    rw [List.foldl_cons, hv]
    rfl

theorem pyIntHex_all_digits (s : String) (hne : s.toList ≠ [])
    (hall : ∀ c ∈ s.toList, (hexDigitVal c).isSome) :
    pyIntHex s = Except.ok ((hexValue s.toList : Nat) : Int) := by
  obtain ⟨c0, rest, hsplit⟩ : ∃ c0 rest, s.toList = c0 :: rest := by
    cases hcs : s.toList with
    | nil => exact absurd hcs hne
    | cons a b => exact ⟨a, b, rfl⟩
  rw [hsplit] at hall
  have hc0 : (hexDigitVal c0).isSome := hall c0 (by simp)
  obtain ⟨v0, hv0⟩ := Option.isSome_iff_exists.mp hc0
  have hdw : s.toList.dropWhile isPySpace = c0 :: rest := by
    rw [hsplit, List.dropWhile_cons, hexDigit_not_space c0 hc0]
    simp
  have hsign : stripSign (c0 :: rest) = (1, c0 :: rest) := by
    have h1 : c0 ≠ '+' := by rintro rfl; exact absurd hc0 (by decide)
    have h2 : c0 ≠ '-' := by rintro rfl; exact absurd hc0 (by decide)
    unfold stripSign
    split
    · rename_i heq
      injection heq with heq1 _
      exact absurd heq1 h1
    · rename_i heq
      injection heq with heq1 _
      exact absurd heq1 h2
    · rfl
  have hpref : strip0x (c0 :: rest) = (false, c0 :: rest) := by
    unfold strip0x
    cases rest with
    | nil =>
      split
      · rename_i c r heq
        injection heq with h1 h2
        cases h2
      · rfl
    | cons c1 r2 =>
      have hc1 : (hexDigitVal c1).isSome := hall c1 (by simp)
      split
      · rename_i c r heq
        injection heq with heq1 heq2
        injection heq2 with heq2 heq3
        subst heq1 heq2 heq3
        rw [if_neg]
        rintro (rfl | rfl) <;> exact absurd hc1 (by decide)
      · rfl
  unfold pyIntHex
  rw [hdw, hsign]
  dsimp only
  rw [hpref]
  dsimp only
  unfold hexRun
  rw [hv0]
  dsimp only
  rw [hexRun_digits rest _ (fun d hd => hall d (by simp [hd]))]
  rw [hsplit]
  unfold hexValue
  rw [List.foldl_cons, hv0]
  simp

/-! ## Evaluation lemmas for the subnet allocator -/

theorem mkIPv6Network_okI (a : Nat) (p : Int) (h0 : 0 ≤ p) (h128 : p ≤ 128)
    (ha : a < 2 ^ 128) (hhost : a % 2 ^ (128 - p.toNat) = 0) :
    mkIPv6Network (a : Int) p = Except.ok ⟨a, p.toNat⟩ := by
  have ha' : (a : Int) < 2 ^ 128 := by exact_mod_cast ha
  unfold mkIPv6Network
  rw [if_pos (by omega), if_pos (by omega), if_pos (by simpa using hhost)]
  simp

theorem getItem_pos (net : IPv6Net) (n : Int) (h0 : 0 ≤ n)
    (hle : n ≤ 2 ^ (128 - net.plen) - 1) :
    getItem net n = Except.ok ((net.addr : Int) + n).toNat := by
  unfold getItem
  rw [if_pos h0, if_neg (by omega)]

theorem getItem_pos_out (net : IPv6Net) (n : Int) (h0 : 0 ≤ n)
    (hgt : 2 ^ (128 - net.plen) - 1 < n) :
    getItem net n = Except.error "address out of range" := by
  unfold getItem
  rw [if_pos h0, if_pos (by omega)]

theorem getItem_neg_in (net : IPv6Net) (n : Int) (hn : n < 0)
    (hge : -(2 ^ (128 - net.plen) : Int) ≤ n) :
    getItem net n = Except.ok ((net.addr : Int) + 2 ^ (128 - net.plen) + n).toNat := by
  unfold getItem
  rw [if_neg (by omega), if_neg (by omega)]
  congr 2
  ring

theorem getItem_neg_out (net : IPv6Net) (n : Int) (hn : n < 0)
    (hlt : n < -(2 ^ (128 - net.plen) : Int)) :
    getItem net n = Except.error "address out of range" := by
  unfold getItem
  rw [if_neg (by omega), if_pos (by omega)]

theorem cast_two_pow (k : Nat) : ((2 ^ k : Nat) : Int) = 2 ^ k := by
  push_cast
  norm_num

theorem config_suffix_append_hex_eval (net : IPv6Net) (s : String) (v : Int)
    (hplen : net.plen ≤ 128) (haddr : net.addr < 2 ^ 128)
    (hcanon : net.addr % 2 ^ (128 - net.plen) = 0)
    (hparse : pyIntHex s = Except.ok v) (hv0 : 0 ≤ v)
    (hvlt : v.toNat < 2 ^ (4 * s.length))
    (hbits : 4 * s.length ≤ 128 - net.plen) :
    config_suffix_append net (Sum.inl s) =
      Except.ok ⟨net.addr + v.toNat * 2 ^ (128 - net.plen - 4 * s.length),
        net.plen + 4 * s.length⟩ := by
  have hc1 : ((128 - net.plen : Nat) : Int) = 128 - (net.plen : Int) :=
    Nat.cast_sub hplen
  have hsh : (128 - (net.plen : Int) - (s.length : Int) * 4).toNat =
      128 - net.plen - 4 * s.length := by omega
  have hoffN : v.toNat * 2 ^ (128 - net.plen - 4 * s.length) < 2 ^ (128 - net.plen) := by
    calc v.toNat * 2 ^ (128 - net.plen - 4 * s.length)
        < 2 ^ (4 * s.length) * 2 ^ (128 - net.plen - 4 * s.length) :=
          (Nat.mul_lt_mul_right (Nat.two_pow_pos _)).mpr hvlt
      _ = 2 ^ (128 - net.plen) := by rw [← pow_add]; congr 1; omega
  have hoff : v * (2 : Int) ^ ((128 - (net.plen : Int) - (s.length : Int) * 4).toNat) =
      ((v.toNat * 2 ^ (128 - net.plen - 4 * s.length) : Nat) : Int) := by
    rw [hsh]
    push_cast
    rw [Int.toNat_of_nonneg hv0]
  have hdvd1 : 2 ^ (128 - net.plen) ∣ net.addr := Nat.dvd_of_mod_eq_zero hcanon
  have hdvdk : 2 ^ (128 - net.plen - 4 * s.length) ∣ net.addr :=
    dvd_trans (pow_dvd_pow 2 (by omega)) hdvd1
  obtain ⟨q, hq⟩ := hdvd1
  have hqlt : q < 2 ^ net.plen := by
    by_contra hge
    push_neg at hge
    have h1 : (2 : Nat) ^ 128 ≤ net.addr := by
      calc (2 : Nat) ^ 128 = 2 ^ (128 - net.plen) * 2 ^ net.plen := by
            rw [← pow_add]; congr 1; omega
        _ ≤ 2 ^ (128 - net.plen) * q := Nat.mul_le_mul_left _ hge
        _ = net.addr := hq.symm
    omega
  have hsum : net.addr + v.toNat * 2 ^ (128 - net.plen - 4 * s.length) < 2 ^ 128 := by
    rw [hq]
    calc 2 ^ (128 - net.plen) * q + v.toNat * 2 ^ (128 - net.plen - 4 * s.length)
        < 2 ^ (128 - net.plen) * q + 2 ^ (128 - net.plen) := by omega
      _ = 2 ^ (128 - net.plen) * (q + 1) := by ring
      _ ≤ 2 ^ (128 - net.plen) * 2 ^ net.plen :=
          Nat.mul_le_mul_left _ (by omega)
      _ = 2 ^ 128 := by rw [← pow_add]; congr 1; omega
  have hhost : (net.addr + v.toNat * 2 ^ (128 - net.plen - 4 * s.length)) %
      2 ^ (128 - ((s.length : Int) * 4 + (net.plen : Int)).toNat) = 0 := by
    have hexp : 128 - ((s.length : Int) * 4 + (net.plen : Int)).toNat =
        128 - net.plen - 4 * s.length := by omega
    rw [hexp]
    obtain ⟨c, hc⟩ := Nat.dvd_add hdvdk (Dvd.intro_left _ rfl)
    rw [hc, Nat.mul_mod_right]
  have hshpos : ¬(128 - (net.plen : Int) - (s.length : Int) * 4 < 0) := by
    have h1 : (net.plen : Int) ≤ 128 := by exact_mod_cast hplen
    have h2 : ((4 * s.length : Nat) : Int) ≤ ((128 - net.plen : Nat) : Int) := by
      exact_mod_cast hbits
    rw [hc1] at h2
    push_cast at h2
    omega
  unfold config_suffix_append
  dsimp only
  rw [hparse, ebind_ok]
  rw [if_neg hshpos]
  rw [hoff, getItem_pos net _ (by positivity) (by
    have h1 : ((v.toNat * 2 ^ (128 - net.plen - 4 * s.length) : Nat) : Int) <
        ((2 ^ (128 - net.plen) : Nat) : Int) := by exact_mod_cast hoffN
    rw [cast_two_pow] at h1
    omega), ebind_ok]
  rw [show (((net.addr : Int)) + ((v.toNat * 2 ^ (128 - net.plen - 4 * s.length) : Nat) : Int)).toNat =
      net.addr + v.toNat * 2 ^ (128 - net.plen - 4 * s.length) from by omega]
  rw [mkIPv6Network_okI _ _ (by positivity) (by omega) hsum hhost]
  congr 2
  omega

theorem config_suffix_append_hex_fail (net : IPv6Net) (s : String) (v : Int)
    (hplen : net.plen ≤ 128) (hparse : pyIntHex s = Except.ok v)
    (hbits : 128 - net.plen < 4 * s.length) :
    config_suffix_append net (Sum.inl s) = Except.error "negative shift count" := by
  have h1 : (net.plen : Int) ≤ 128 := by exact_mod_cast hplen
  have h2 : ((128 - net.plen : Nat) : Int) < ((4 * s.length : Nat) : Int) := by
    exact_mod_cast hbits
  rw [Nat.cast_sub hplen] at h2
  push_cast at h2
  unfold config_suffix_append
  dsimp only
  rw [hparse, ebind_ok]
  rw [if_pos (by omega)]

theorem config_suffix_append_pair_eval (net : IPv6Net) (s2 : String) (n : Int) (v2 : Int)
    (hparse : pyIntHex s2 = Except.ok v2) (hv2 : 0 ≤ v2)
    (hlt : v2 ≤ 2 ^ (128 - net.plen) - 1) :
    config_suffix_append net (Sum.inr (s2, n)) =
      mkIPv6Network ((net.addr + v2.toNat : Nat) : Int) n := by
  unfold config_suffix_append
  dsimp only
  rw [hparse, ebind_ok, getItem_pos net v2 hv2 hlt, ebind_ok]
  rw [show ((net.addr : Int) + v2).toNat = net.addr + v2.toNat from by omega]

/-! ## C5: FixedSizeUInt construction -/

/-- C5: for each width W among NodeID's 40 and NetworkID's 64, construction
from any value in [0, 2^W − 1] succeeds and returns the value unchanged,
while construction from 2^W or from −1 fails with a range error. -/
theorem fixedSizeUInt_roundtrip (w : Nat)
    (hw : w = NodeID.size ∨ w = NetworkID.size) (v : Int) :
    (0 ≤ v ∧ v ≤ 2 ^ w - 1 → FixedSizeUInt.new w v = Except.ok v) ∧
    FixedSizeUInt.new w (2 ^ w) = Except.error "is outside the range" ∧
    FixedSizeUInt.new w (-1) = Except.error "is outside the range" := by
  have hpos : (0 : Int) < 2 ^ w := by positivity
  refine ⟨fun h => ?_, ?_, ?_⟩
  · unfold FixedSizeUInt.new
    rw [if_pos h]
  · unfold FixedSizeUInt.new
    rw [if_neg (by omega)]
  · unfold FixedSizeUInt.new
    rw [if_neg (by omega)]

/-- Witness for C5 at width 40 and value 5. -/
theorem fixedSizeUInt_roundtrip_witness :
    FixedSizeUInt.new 40 5 = Except.ok 5 ∧
    FixedSizeUInt.new 40 (2 ^ 40) = Except.error "is outside the range" ∧
    FixedSizeUInt.new 40 (-1) = Except.error "is outside the range" := by
  have h := fixedSizeUInt_roundtrip 40 (Or.inl rfl) 5
  exact ⟨h.1 (by norm_num), h.2.1, h.2.2⟩

/-! ## C1: the 6plane derivation -/

/-- The device-subnet constructor call inside `mk6plane`, evaluated. -/
theorem mk6plane_net_eq (folded nodeid : Nat) (hflt : folded < 2 ^ 32)
    (hd : nodeid < 2 ^ 40) :
    mkIPv6Network
      (((0xfc <<< (8 * 15)) + (folded <<< (8 * 11)) + (nodeid <<< (8 * 6)) : Nat) : Int) 80 =
      Except.ok ⟨0xFC * 2 ^ 120 + folded * 2 ^ 88 + nodeid * 2 ^ 48, 80⟩ := by
  rw [show (0xfc <<< (8 * 15)) + (folded <<< (8 * 11)) + (nodeid <<< (8 * 6)) =
      0xFC * 2 ^ 120 + folded * 2 ^ 88 + nodeid * 2 ^ 48 by norm_num [Nat.shiftLeft_eq]]
  exact mkIPv6Network_ok _ 80 (by omega) (by omega) (by omega)

/-- The supernet call inside `mk6plane`, evaluated: only the `0xFC` byte and
the folded word survive the /40 truncation. -/
theorem mk6plane_sup_eq (folded nodeid : Nat) (hflt : folded < 2 ^ 32)
    (hd : nodeid < 2 ^ 40) :
    supernet ⟨0xFC * 2 ^ 120 + folded * 2 ^ 88 + nodeid * 2 ^ 48, 80⟩ 40 =
      Except.ok ⟨0xFC * 2 ^ 120 + folded * 2 ^ 88, 40⟩ := by
  have hsup : 0xFC * 2 ^ 120 + folded * 2 ^ 88 + nodeid * 2 ^ 48 -
      (0xFC * 2 ^ 120 + folded * 2 ^ 88 + nodeid * 2 ^ 48) % 2 ^ (128 - 40) =
      0xFC * 2 ^ 120 + folded * 2 ^ 88 := by omega
  rw [supernet_ok _ 40 (by norm_num)]
  dsimp only
  rw [hsup]

/-- The host-offset-1 lookup inside `mk6plane`, evaluated. -/
theorem mk6plane_first_eq (folded nodeid : Nat) :
    getItem ⟨0xFC * 2 ^ 120 + folded * 2 ^ 88 + nodeid * 2 ^ 48, 80⟩ (1 : Int) =
      Except.ok (0xFC * 2 ^ 120 + folded * 2 ^ 88 + nodeid * 2 ^ 48 + 1) :=
  getItem_ok ⟨0xFC * 2 ^ 120 + folded * 2 ^ 88 + nodeid * 2 ^ 48, 80⟩ 1 (by norm_num)

/-- C1: for every 64-bit network id and 40-bit node id, `mk6plane` succeeds
and returns the /80 device subnet at `0xFC·2^120 + folded·2^88 + nodeid·2^48`
(low 48 bits zero), the /40 supernet at the same address truncated to 40
bits (depending only on `folded`), and the device subnet's address at host
offset 1. -/
theorem mk6plane_spec (nwid nodeid : Nat) (hn : nwid < 2 ^ 64)
    (hd : nodeid < 2 ^ 40) (folded : Nat)
    (hfold : folded = (nwid ^^^ (nwid >>> 32)) &&& 0xFFFFFFFF) :
    mk6plane nwid nodeid =
      Except.ok (⟨0xFC * 2 ^ 120 + folded * 2 ^ 88, 40⟩,
                 ⟨0xFC * 2 ^ 120 + folded * 2 ^ 88 + nodeid * 2 ^ 48, 80⟩,
                 0xFC * 2 ^ 120 + folded * 2 ^ 88 + nodeid * 2 ^ 48 + 1) ∧
    (0xFC * 2 ^ 120 + folded * 2 ^ 88 + nodeid * 2 ^ 48) % 2 ^ 48 = 0 ∧
    ∀ a, addrInNet ⟨0xFC * 2 ^ 120 + folded * 2 ^ 88 + nodeid * 2 ^ 48, 80⟩ a →
      addrInNet ⟨0xFC * 2 ^ 120 + folded * 2 ^ 88, 40⟩ a := by
  have hflt : folded < 2 ^ 32 := by
    rw [hfold, show (0xFFFFFFFF : Nat) = 2 ^ 32 - 1 by norm_num,
      Nat.and_pow_two_sub_one_eq_mod]
    exact Nat.mod_lt _ (by norm_num)
  have hfold2 : (nwid ^^^ (nwid >>> (8 * 4))) &&& ((1 <<< (8 * 4)) - 1) = folded := by
    rw [hfold]
    norm_num [Nat.shiftLeft_eq]
  refine ⟨?_, by omega, ?_⟩
  · unfold mk6plane
    rw [hfold2]
    dsimp only
    rw [mk6plane_net_eq folded nodeid hflt hd, ebind_ok]
    rw [mk6plane_sup_eq folded nodeid hflt hd, ebind_ok]
    rw [mk6plane_first_eq folded nodeid, ebind_ok]
  · intro a ha
    unfold addrInNet at *
    simp only at ha ⊢
    omega

/-- Witness for C1 at a concrete network and node id. -/
theorem mk6plane_spec_witness :
    mk6plane 0x1234567800000000 0x8899aabbcc =
      Except.ok (⟨0xFC * 2 ^ 120 + 0x12345678 * 2 ^ 88, 40⟩,
                 ⟨0xFC * 2 ^ 120 + 0x12345678 * 2 ^ 88 + 0x8899aabbcc * 2 ^ 48, 80⟩,
                 0xFC * 2 ^ 120 + 0x12345678 * 2 ^ 88 + 0x8899aabbcc * 2 ^ 48 + 1) := by
  have h := mk6plane_spec 0x1234567800000000 0x8899aabbcc (by norm_num) (by norm_num)
    0x12345678 (by decide)
  exact h.1

/-! ## C4: interface naming -/

/-- The five big-endian bytes of a value. -/
theorem toBytesBE_five (m : Nat) : toBytesBE 5 m =
    [m / 256 ^ 4 % 256, m / 256 ^ 3 % 256, m / 256 ^ 2 % 256, m / 256 % 256, m % 256] := by
  simp [toBytesBE, Nat.div_div_eq_div_mul]

/-- `b32groups` on a five-byte list is a single chunk. -/
theorem b32groups_five (b0 b1 b2 b3 b4 : Nat) :
    b32groups [b0, b1, b2, b3, b4] =
    b32chunk ((((b0 * 256 + b1) * 256 + b2) * 256 + b3) * 256 + b4) := by
  simp [b32groups]

/-- A chunk has eight characters. -/
theorem b32chunk_length (n : Nat) : (b32chunk n).length = 8 := by
  simp [b32chunk]

/-- Five input bytes need no `=` padding. -/
theorem b32encode_five (bs : List Nat) (h : bs.length = 5) : b32encode bs = b32groups bs := by
  unfold b32encode
  rw [h]
  norm_num [b32padCount]

/-- `b32encode` of the five big-endian bytes of a 40-bit value is the chunk
encoding of the value itself. -/
theorem b32encode_bytes (m : Nat) (hm : m < 2 ^ 40) :
    b32encode (toBytesBE 5 m) = b32chunk m := by
  rw [toBytesBE_five, b32encode_five _ (by simp), b32groups_five]
  congr 1
  omega

/-- Each lowercased alphabet character lands in `ztLowerAlphabet`. -/
theorem b32alphabet_lower_mem (d : Nat) (hd : d < 32) :
    Char.toLower (b32alphabet.getD d 'A') ∈ ztLowerAlphabet := by
  revert d hd
  decide

/-- C4: for every 64-bit network id and every trial, `ifname` succeeds and
returns the literal `zt` followed by the lowercase base-32 encoding of the
five big-endian bytes of `folded40 = (nwid XOR ((nwid >> 24) + trial)) mod
2^40` (the addition of `trial` applying to the shifted term before the XOR),
and the output always has the shape `zt[a-z2-7]{8}`. -/
theorem ifname_spec (nwid trial : Nat) (hn : nwid < 2 ^ 64) :
    ifname nwid trial = Except.ok ("zt" ++ String.mk ((b32encode (toBytesBE 5
        ((nwid ^^^ ((nwid >>> 24) + trial)) % 2 ^ 40))).map Char.toLower)) ∧
    ∀ out, ifname nwid trial = Except.ok out →
      out.length = 10 ∧ out.toList.take 2 = ['z', 't'] ∧
      ∀ c ∈ out.toList.drop 2, c ∈ ztLowerAlphabet := by
  have hmask : (nwid ^^^ ((nwid >>> (8 * 3)) + trial)) &&& ((1 <<< (8 * 5)) - 1) =
      (nwid ^^^ ((nwid >>> 24) + trial)) % 2 ^ 40 := by
    rw [show ((1 <<< (8 * 5)) - 1 : Nat) = 2 ^ 40 - 1 by norm_num [Nat.shiftLeft_eq]]
    rw [Nat.and_pow_two_sub_one_eq_mod]
  have hmlt : (nwid ^^^ ((nwid >>> 24) + trial)) % 2 ^ 40 < 2 ^ 40 :=
    Nat.mod_lt _ (by norm_num)
  have hok : ifname nwid trial = Except.ok ("zt" ++ String.mk ((b32encode (toBytesBE 5
      ((nwid ^^^ ((nwid >>> 24) + trial)) % 2 ^ 40))).map Char.toLower)) := by
    unfold ifname
    rw [hmask]
    dsimp only
    rw [if_pos (lt_of_lt_of_le hmlt (by norm_num))]
  refine ⟨hok, fun out hout => ?_⟩
  rw [hok] at hout
  injection hout with hout2
  subst hout2
  rw [b32encode_bytes _ hmlt]
  refine ⟨?_, ?_, ?_⟩
  · rw [String.length_append, show "zt".length = 2 from rfl]
    simp [b32chunk]
  · rfl
  · intro c hc
    have hc2 : c ∈ (b32chunk ((nwid ^^^ ((nwid >>> 24) + trial)) % 2 ^ 40)).map
        Char.toLower := by simpa using hc
    rcases List.mem_map.mp hc2 with ⟨c0, hc0, rfl⟩
    simp only [b32chunk] at hc0
    rcases List.mem_map.mp hc0 with ⟨i, hi, rfl⟩
    exact b32alphabet_lower_mem _ (Nat.mod_lt _ (by norm_num))

/-- Witness for C4 at a concrete network id and trial. -/
theorem ifname_spec_witness :
    ifname 0xd3ecf5726d81a493 0 = Except.ok "ztugaxjvx6" ∧
    "ztugaxjvx6".length = 10 ∧ "ztugaxjvx6".toList.take 2 = ['z', 't'] ∧
    ∀ c ∈ "ztugaxjvx6".toList.drop 2, c ∈ ztLowerAlphabet := by
  have h := ifname_spec 0xd3ecf5726d81a493 0 (by norm_num)
  have hval : ifname 0xd3ecf5726d81a493 0 = Except.ok "ztugaxjvx6" := by
    rw [h.1]
    rfl
  have hp := h.2 "ztugaxjvx6" hval
  exact ⟨hval, hp.1, hp.2.1, hp.2.2⟩

/-! ## C10, C2, C3: the subnet allocator -/

/-- Arithmetic facts about the spliced child address: it stays below
`2^128`, its host bits below the child prefix are zero, and the offset plus
one child-block stays inside the parent block. -/
theorem hex_child_bounds (net : IPv6Net) (s : String) (v : Int)
    (hplen : net.plen ≤ 128) (haddr : net.addr < 2 ^ 128)
    (hcanon : net.addr % 2 ^ (128 - net.plen) = 0)
    (hvlt : v.toNat < 2 ^ (4 * s.length))
    (hbits : 4 * s.length ≤ 128 - net.plen) :
    net.addr + v.toNat * 2 ^ (128 - net.plen - 4 * s.length) < 2 ^ 128 ∧
    (net.addr + v.toNat * 2 ^ (128 - net.plen - 4 * s.length)) %
      2 ^ (128 - (net.plen + 4 * s.length)) = 0 ∧
    v.toNat * 2 ^ (128 - net.plen - 4 * s.length) + 2 ^ (128 - net.plen - 4 * s.length) ≤
      2 ^ (128 - net.plen) := by
  have hdvd1 : 2 ^ (128 - net.plen) ∣ net.addr := Nat.dvd_of_mod_eq_zero hcanon
  have hdvdk : 2 ^ (128 - net.plen - 4 * s.length) ∣ net.addr :=
    dvd_trans (pow_dvd_pow 2 (by omega)) hdvd1
  have hoffsize : v.toNat * 2 ^ (128 - net.plen - 4 * s.length) +
      2 ^ (128 - net.plen - 4 * s.length) ≤ 2 ^ (128 - net.plen) := by
    calc v.toNat * 2 ^ (128 - net.plen - 4 * s.length) +
        2 ^ (128 - net.plen - 4 * s.length)
        = (v.toNat + 1) * 2 ^ (128 - net.plen - 4 * s.length) := by ring
      _ ≤ 2 ^ (4 * s.length) * 2 ^ (128 - net.plen - 4 * s.length) :=
          Nat.mul_le_mul_right _ (by omega)
      _ = 2 ^ (128 - net.plen) := by rw [← pow_add]; congr 1; omega
  obtain ⟨q, hq⟩ := hdvd1
  have hqlt : q < 2 ^ net.plen := by
    by_contra hge
    push_neg at hge
    have h1 : (2 : Nat) ^ 128 ≤ net.addr := by
      calc (2 : Nat) ^ 128 = 2 ^ (128 - net.plen) * 2 ^ net.plen := by
            rw [← pow_add]; congr 1; omega
        _ ≤ 2 ^ (128 - net.plen) * q := Nat.mul_le_mul_left _ hge
        _ = net.addr := hq.symm
    omega
  refine ⟨?_, ?_, hoffsize⟩
  · rw [hq]
    calc 2 ^ (128 - net.plen) * q + v.toNat * 2 ^ (128 - net.plen - 4 * s.length)
        < 2 ^ (128 - net.plen) * q + 2 ^ (128 - net.plen) := by
          have := Nat.two_pow_pos (128 - net.plen - 4 * s.length)
          omega
      _ = 2 ^ (128 - net.plen) * (q + 1) := by ring
      _ ≤ 2 ^ (128 - net.plen) * 2 ^ net.plen := Nat.mul_le_mul_left _ (by omega)
      _ = 2 ^ 128 := by rw [← pow_add]; congr 1; omega
  · obtain ⟨c, hc⟩ := Nat.dvd_add hdvdk
      (Dvd.intro_left v.toNat rfl)
    rw [show 128 - (net.plen + 4 * s.length) = 128 - net.plen - 4 * s.length from by omega,
      hc, Nat.mul_mod_right]

/-- C10: under the hex-string form's precondition (non-negative parsed value
and `4·len(s) ≤ 128 − plen`), the spliced child address has all host bits
below the new prefix length zero, so the strict network construction at the
end of the allocator succeeds: the error branch is unreachable and the
operation is total. -/
theorem hex_branch_total (net : IPv6Net) (s : String) (v : Int)
    (hplen : net.plen ≤ 128) (haddr : net.addr < 2 ^ 128)
    (hcanon : net.addr % 2 ^ (128 - net.plen) = 0)
    (hparse : pyIntHex s = Except.ok v) (hv0 : 0 ≤ v)
    (hbits : 4 * s.length ≤ 128 - net.plen) :
    ∃ child : IPv6Net, config_suffix_append net (Sum.inl s) = Except.ok child ∧
      child.plen = net.plen + 4 * s.length ∧
      child.addr % 2 ^ (128 - child.plen) = 0 := by
  have hvlt : v.toNat < 2 ^ (4 * s.length) := pyIntHex_toNat_lt s v hparse
  have hb := hex_child_bounds net s v hplen haddr hcanon hvlt hbits
  exact ⟨_, config_suffix_append_hex_eval net s v hplen haddr hcanon hparse hv0 hvlt hbits,
    rfl, hb.2.1⟩

/-- Witness for C10 on the /80 device subnet at `::` with prefix string `1`. -/
theorem hex_branch_total_witness :
    config_suffix_append ⟨0, 80⟩ (Sum.inl "1") = Except.ok ⟨2 ^ 44, 84⟩ ∧
    (2 : Nat) ^ 44 % 2 ^ (128 - 84) = 0 := by
  obtain ⟨c, hc, hplen, hcanon⟩ := hex_branch_total ⟨0, 80⟩ "1" 1 (by norm_num)
    (by norm_num) (by norm_num) (by rfl) (by norm_num) (by decide)
  have he : (Except.ok c : Except String IPv6Net) = Except.ok ⟨2 ^ 44, 84⟩ := by
    rw [← hc]
    rfl
  injection he with he2
  subst he2
  exact ⟨hc, hcanon⟩

/-- C2 counterexample: the claim's splice-and-extend formula is wrong for the
explicit pair form. On the whole space `::/0` with pair `("1", 4)` (value 1,
four bits), the claim predicts the child `⟨1·2^(128−0−4), 0+4⟩`; the code
instead uses the parsed value as an unshifted host offset and the pair's
integer as the absolute prefix length, so the strict constructor rejects the
address `::1` at prefix length 4. -/
theorem config_suffix_append_pair_counterexample :
    config_suffix_append ⟨0, 0⟩ (Sum.inr ("1", 4)) = Except.error "has host bits set" ∧
    config_suffix_append ⟨0, 0⟩ (Sum.inr ("1", 4)) ≠
      Except.ok ⟨1 * 2 ^ (128 - 0 - 4), 0 + 4⟩ := by
  have h1 : config_suffix_append ⟨0, 0⟩ (Sum.inr ("1", 4)) =
      Except.error "has host bits set" := by rfl
  refine ⟨h1, ?_⟩
  rw [h1]
  intro h
  cases h

/-- C2 (amended to the hex-string form): with parsed value `v ≥ 0`,
`v < 2^(4L)`: if `4L ≤ 128 − plen` the child is the parent's address plus
`v·2^(128−plen−4L)` at prefix length `plen + 4L` and lies inside the parent;
if `4L > 128 − plen` the allocator fails (Python raises a negative-shift
ValueError); chaining two hex-string specs extends the prefix length by the
sum of their bit counts, and the grandchild still lies inside the parent.
The explicit pair form instead uses the parsed value as an unshifted host
offset and the integer as the absolute prefix length. -/
theorem config_suffix_append_hex_spec (net : IPv6Net) (s : String) (v : Int)
    (hplen : net.plen ≤ 128) (haddr : net.addr < 2 ^ 128)
    (hcanon : net.addr % 2 ^ (128 - net.plen) = 0)
    (hparse : pyIntHex s = Except.ok v) (hv0 : 0 ≤ v)
    (hvlt : v.toNat < 2 ^ (4 * s.length)) :
    (4 * s.length ≤ 128 - net.plen →
      config_suffix_append net (Sum.inl s) =
        Except.ok ⟨net.addr + v.toNat * 2 ^ (128 - net.plen - 4 * s.length),
          net.plen + 4 * s.length⟩ ∧
      ∀ a, addrInNet ⟨net.addr + v.toNat * 2 ^ (128 - net.plen - 4 * s.length),
          net.plen + 4 * s.length⟩ a → addrInNet net a) ∧
    (128 - net.plen < 4 * s.length →
      config_suffix_append net (Sum.inl s) = Except.error "negative shift count") ∧
    (∀ s2 v2, pyIntHex s2 = Except.ok v2 → 0 ≤ v2 → v2.toNat < 2 ^ (4 * s2.length) →
      4 * s.length + 4 * s2.length ≤ 128 - net.plen →
      ∃ gchild, Except.bind (config_suffix_append net (Sum.inl s))
          (fun c => config_suffix_append c (Sum.inl s2)) = Except.ok gchild ∧
        gchild.plen = net.plen + 4 * s.length + 4 * s2.length ∧
        ∀ a, addrInNet gchild a → addrInNet net a) := by
  refine ⟨fun hbits => ?_, fun hbits => ?_, fun s2 v2 hp2 hv20 hvlt2 hbits => ?_⟩
  · have hb := hex_child_bounds net s v hplen haddr hcanon hvlt hbits
    refine ⟨config_suffix_append_hex_eval net s v hplen haddr hcanon hparse hv0 hvlt hbits, ?_⟩
    intro a ha
    unfold addrInNet at ha ⊢
    dsimp only at ha ⊢
    rw [show 128 - (net.plen + 4 * s.length) = 128 - net.plen - 4 * s.length
      from by omega] at ha
    omega
  · exact config_suffix_append_hex_fail net s v hplen hparse hbits
  · have hbits1 : 4 * s.length ≤ 128 - net.plen := by omega
    have hb1 := hex_child_bounds net s v hplen haddr hcanon hvlt hbits1
    have he1 := config_suffix_append_hex_eval net s v hplen haddr hcanon hparse hv0 hvlt hbits1
    have hsub1 : 128 - (net.plen + 4 * s.length) = 128 - net.plen - 4 * s.length := by omega
    have hsub2 : 128 - (net.plen + 4 * s.length) - 4 * s2.length =
        128 - net.plen - 4 * s.length - 4 * s2.length := by omega
    have hb2 := hex_child_bounds
      ⟨net.addr + v.toNat * 2 ^ (128 - net.plen - 4 * s.length), net.plen + 4 * s.length⟩
      s2 v2 (by dsimp only; omega) hb1.1 hb1.2.1 hvlt2 (by dsimp only; omega)
    have he2 := config_suffix_append_hex_eval
      ⟨net.addr + v.toNat * 2 ^ (128 - net.plen - 4 * s.length), net.plen + 4 * s.length⟩
      s2 v2 (by dsimp only; omega) hb1.1 hb1.2.1 hp2 hv20 hvlt2 (by dsimp only; omega)
    dsimp only at hb2 he2
    rw [hsub2] at hb2 he2
    rw [hsub1] at hb2
    refine ⟨⟨net.addr + v.toNat * 2 ^ (128 - net.plen - 4 * s.length) +
        v2.toNat * 2 ^ (128 - net.plen - 4 * s.length - 4 * s2.length),
      net.plen + 4 * s.length + 4 * s2.length⟩, ?_, rfl, ?_⟩
    · rw [he1, ebind_ok, he2]
    · intro a ha
      unfold addrInNet at ha ⊢
      dsimp only at ha ⊢
      rw [show 128 - (net.plen + 4 * s.length + 4 * s2.length) =
          128 - net.plen - 4 * s.length - 4 * s2.length from by omega] at ha
      have hoff1 := hb1.2.2
      have hoff2 := hb2.2.2
      omega

/-- Witness for C2 on `::/80` with the hex strings `1` and `2`. -/
theorem config_suffix_append_hex_spec_witness :
    config_suffix_append ⟨0, 80⟩ (Sum.inl "1") = Except.ok ⟨2 ^ 44, 84⟩ ∧
    Except.bind (config_suffix_append ⟨0, 80⟩ (Sum.inl "1"))
      (fun c => config_suffix_append c (Sum.inl "2")) =
      Except.ok ⟨2 ^ 44 + 2 * 2 ^ 40, 88⟩ := by
  have h := config_suffix_append_hex_spec ⟨0, 80⟩ "1" 1 (by norm_num) (by norm_num)
    (by norm_num) (by rfl) (by norm_num) (by decide)
  have h1 := (h.1 (by decide)).1
  obtain ⟨g, hg, hgp, _⟩ := h.2.2 "2" 2 (by rfl) (by norm_num) (by decide) (by decide)
  have he : (Except.ok g : Except String IPv6Net) = Except.ok ⟨2 ^ 44 + 2 * 2 ^ 40, 88⟩ := by
    rw [← hg]
    rfl
  injection he with he2
  subst he2
  refine ⟨?_, hg⟩
  rw [h1]
  rfl

/-- C3 counterexample: the two construction forms are not equivalent. On the
parent `::/80` the hex string `"0"` yields `::/84`, while the pair form with
value `parse_hex("0") = 0` and bits `4·len("0") = 4` yields `::/4`. -/
theorem suffix_forms_counterexample :
    config_suffix_append ⟨0, 80⟩ (Sum.inl "0") = Except.ok ⟨0, 84⟩ ∧
    config_suffix_append ⟨0, 80⟩ (Sum.inr ("0", 4)) = Except.ok ⟨0, 4⟩ ∧
    ¬((⟨0, 84⟩ : IPv6Net) = (⟨0, 4⟩ : IPv6Net)) :=
  ⟨rfl, rfl, by decide⟩

/-- C3 (amended): the hex-string form `s` on a parent coincides not with the
pair `(s, 4·len(s))` but with the pair whose string parses to the already
shifted value `parse_hex(s)·2^(128−plen−4·len(s))` and whose integer is the
absolute child prefix length `plen + 4·len(s)`. -/
theorem suffix_forms_amended (net : IPv6Net) (s s2 : String) (v : Int)
    (hplen : net.plen ≤ 128) (haddr : net.addr < 2 ^ 128)
    (hcanon : net.addr % 2 ^ (128 - net.plen) = 0)
    (hs : pyIntHex s = Except.ok v) (hv0 : 0 ≤ v)
    (hvlt : v.toNat < 2 ^ (4 * s.length))
    (hbits : 4 * s.length ≤ 128 - net.plen)
    (hs2 : pyIntHex s2 = Except.ok (v * 2 ^ (128 - net.plen - 4 * s.length))) :
    config_suffix_append net (Sum.inl s) =
      config_suffix_append net (Sum.inr (s2, ((net.plen + 4 * s.length : Nat) : Int))) := by
  have hb := hex_child_bounds net s v hplen haddr hcanon hvlt hbits
  have he1 := config_suffix_append_hex_eval net s v hplen haddr hcanon hs hv0 hvlt hbits
  have hcast : v * (2 : Int) ^ (128 - net.plen - 4 * s.length) =
      ((v.toNat * 2 ^ (128 - net.plen - 4 * s.length) : Nat) : Int) := by
    push_cast
    rw [Int.toNat_of_nonneg hv0]
  have hv20 : (0 : Int) ≤ v * 2 ^ (128 - net.plen - 4 * s.length) :=
    mul_nonneg hv0 (by positivity)
  have hoffN : v.toNat * 2 ^ (128 - net.plen - 4 * s.length) < 2 ^ (128 - net.plen) := by
    have := hb.2.2
    have hpos := Nat.two_pow_pos (128 - net.plen - 4 * s.length)
    omega
  have hle : v * (2 : Int) ^ (128 - net.plen - 4 * s.length) ≤
      2 ^ (128 - net.plen) - 1 := by
    rw [hcast]
    have h1 : ((v.toNat * 2 ^ (128 - net.plen - 4 * s.length) : Nat) : Int) <
        ((2 ^ (128 - net.plen) : Nat) : Int) := by exact_mod_cast hoffN
    rw [cast_two_pow] at h1
    omega
  rw [he1, config_suffix_append_pair_eval net s2 _ _ hs2 hv20 hle]
  rw [show (v * (2 : Int) ^ (128 - net.plen - 4 * s.length)).toNat =
      v.toNat * 2 ^ (128 - net.plen - 4 * s.length) from by rw [hcast, Int.toNat_natCast]]
  rw [mkIPv6Network_okI _ _ (by positivity) (by exact_mod_cast by omega) ?ha ?hhost]
  case ha => exact hb.1
  case hhost =>
    rw [Int.toNat_natCast]
    exact hb.2.1
  rw [Int.toNat_natCast]



/-- Witness for C3: on `::/80`, the hex string `1` and the corrected pair
`("100000000000", 84)` produce the same child network. -/
theorem suffix_forms_amended_witness :
    config_suffix_append ⟨0, 80⟩ (Sum.inl "1") =
      config_suffix_append ⟨0, 80⟩
        (Sum.inr ("100000000000", ((80 + 4 * "1".length : Nat) : Int))) :=
  suffix_forms_amended ⟨0, 80⟩ "1" "100000000000" 1 (by norm_num) (by norm_num)
    (by norm_num) (by rfl) (by norm_num) (by decide) (by decide) (by rfl)

/-! ## C6: hex prefix-string parsing -/

/-- C6 counterexample: the string `"0xa3"` contains the character `x`, which
is not a hexadecimal digit, yet the prefix parse succeeds with value `0xa3`
and bits `4·4 = 16`, because Python's `int(s, 16)` accepts a `0x` marker; the
claim's "fails exactly when empty or containing a non-hex character" is
refuted. -/
theorem hex_prefix_parse_counterexample :
    hex_prefix_parse "0xa3" = Except.ok (163, 16) ∧
    'x' ∈ "0xa3".toList ∧ hexDigitVal 'x' = none :=
  ⟨rfl, by decide, rfl⟩

/-- C6 (amended): parsing fails on the empty string, and every nonempty
string of plain hexadecimal digits parses to `(parse_hex(s), 4·len(s))`; but
a string containing a character outside `[0-9a-fA-F]` need not fail, since
`int(s, 16)` also accepts surrounding whitespace, a sign, a `0x`/`0X` marker
and underscores between digits (e.g. `"0xa3"` parses to `0xa3` with bits 16).
-/
theorem hex_prefix_parse_spec :
    (∀ s : String, s.toList ≠ [] → (∀ c ∈ s.toList, (hexDigitVal c).isSome) →
      hex_prefix_parse s = Except.ok (((hexValue s.toList : Nat) : Int), 4 * s.length)) ∧
    hex_prefix_parse "" = Except.error "invalid literal for int with base 16" ∧
    hex_prefix_parse "0xa3" = Except.ok (163, 16) := by
  refine ⟨fun s hne hall => ?_, by rfl, by rfl⟩
  unfold hex_prefix_parse
  rw [pyIntHex_all_digits s hne hall, ebind_ok]

/-- Witness for C6 at the string `a3`. -/
theorem hex_prefix_parse_spec_witness :
    hex_prefix_parse "a3" = Except.ok (163, 8) := by
  have h := hex_prefix_parse_spec.1 "a3" (by decide) (by decide)
  rw [h]
  rfl

/-! ## C7: format_client -/

/-- C7 counterexample: on a /96 subnet at `::`, the offset string `"-1"`
parses to −1 and `format_client` returns the subnet's last address
`::ffff:ffff` (Python indexes negatively from the end), not the network
address plus the offset as the claim states. -/
theorem format_client_negative_counterexample :
    format_client_net ⟨0, 96⟩ "-1" = Except.ok (2 ^ 32 - 1) ∧
    pyIntHex "-1" = Except.ok (-1) ∧
    ¬((0 : Int) + (-1) = ((2 ^ 32 - 1 : Nat) : Int)) :=
  ⟨rfl, rfl, by decide⟩

/-- C7 (amended): `format_client` propagates the ValueError of a failed hex
parse; for a parsed non-negative offset it returns the network address plus
the offset, with an out-of-range IndexError beyond `2^(128−plen) − 1`; a
parsed negative offset indexes from the end of the subnet (range error below
`−2^(128−plen)`); in particular `"1"` on a /96 subnet resolves to the network
address plus one, and the method is the working-subnet lookup followed by
this address computation. -/
theorem format_client_spec (net : IPv6Net) (s : String) :
    (∀ e, pyIntHex s = Except.error e → format_client_net net s = Except.error e) ∧
    (∀ v : Int, pyIntHex s = Except.ok v → 0 ≤ v →
      (v ≤ 2 ^ (128 - net.plen) - 1 →
        format_client_net net s = Except.ok (net.addr + v.toNat)) ∧
      (2 ^ (128 - net.plen) - 1 < v →
        format_client_net net s = Except.error "address out of range")) ∧
    (∀ v : Int, pyIntHex s = Except.ok v → v < 0 →
      (-(2 ^ (128 - net.plen) : Int) ≤ v →
        format_client_net net s =
          Except.ok ((net.addr : Int) + 2 ^ (128 - net.plen) + v).toNat) ∧
      (v < -(2 ^ (128 - net.plen) : Int) →
        format_client_net net s = Except.error "address out of range")) ∧
    (net.plen = 96 → format_client_net net "1" = Except.ok (net.addr + 1)) ∧
    (∀ i : IfaceConfig, format_client i s =
      Except.bind (with_prefix_iface i) (fun n => format_client_net n s)) := by
  refine ⟨fun e he => ?_, fun v hv hv0 => ⟨fun hin => ?_, fun hout => ?_⟩,
    fun v hv hvneg => ⟨fun hin => ?_, fun hout => ?_⟩, fun h96 => ?_, fun i => rfl⟩
  · unfold format_client_net
    rw [he, ebind_error]
  · unfold format_client_net
    rw [hv, ebind_ok, getItem_pos net v hv0 hin]
    rw [show ((net.addr : Int) + v).toNat = net.addr + v.toNat from by omega]
  · unfold format_client_net
    rw [hv, ebind_ok, getItem_pos_out net v hv0 hout]
  · unfold format_client_net
    rw [hv, ebind_ok, getItem_neg_in net v hvneg hin]
  · unfold format_client_net
    rw [hv, ebind_ok, getItem_neg_out net v hvneg hout]
  · unfold format_client_net
    rw [show pyIntHex "1" = Except.ok 1 from rfl, ebind_ok,
      getItem_pos net 1 (by norm_num) (by rw [h96]; norm_num)]
    rw [show ((net.addr : Int) + 1).toNat = net.addr + 1 from by omega]

/-- Witness for C7 on the /96 subnet at `::` with offset string `1`. -/
theorem format_client_spec_witness :
    format_client_net ⟨0, 96⟩ "1" = Except.ok 1 := by
  have h := (format_client_spec ⟨0, 96⟩ "1").2.2.2.1 rfl
  simpa using h

/-! ## C8: statics -/

/-- `getD` on a mapped list, below the length. -/
theorem getD_map_of_lt {α β : Type} (f : α → β) (l : List α) :
    ∀ k, k < l.length → ∀ (d : β) (d2 : α),
      (l.map f).getD k d = f (l.getD k d2) := by
  induction l with
  | nil => intro k hk; simp at hk
  | cons a t ih =>
    intro k hk d d2
    cases k with
    | zero => rfl
    | succ k2 =>
      simp only [List.map_cons, List.getD_cons_succ]
      exact ih k2 (by simpa using hk) d d2

/-- C8: for an interface whose back-reference is set, `statics` has exactly
one pair per static-client entry, in table order; the pair at each index is
the entry's link-local address together with `format_client` of the entry's
hex offset; and re-evaluating the sequence yields the same pairs. -/
theorem statics_spec (i : IfaceConfig) (core : ConfigCore)
    (hp : i._parent = some core) :
    (statics i).length = i.static_clients.length ∧
    (∀ k, k < i.static_clients.length →
      (statics i).getD k (0, Except.error "") =
        ((i.static_clients.getD k (0, "")).1,
          format_client i (i.static_clients.getD k (0, "")).2)) ∧
    statics i = statics i := by
  refine ⟨by unfold statics; simp, fun k hk => ?_, rfl⟩
  unfold statics
  rw [getD_map_of_lt _ _ k hk _ (0, "")]

/-- Witness for C8 on a two-entry static-client table. -/
theorem statics_spec_witness :
    (statics ⟨Sum.inl "2", [(0xfe800000000000000000000000000001, "1"),
        (0xfe800000000000000000000000000002, "1f")],
      some ⟨1, 0x8c9a3b1a2e, 0xd3ecf5726d81a493, Sum.inl "1"⟩⟩).length = 2 ∧
    (statics ⟨Sum.inl "2", [(0xfe800000000000000000000000000001, "1"),
        (0xfe800000000000000000000000000002, "1f")],
      some ⟨1, 0x8c9a3b1a2e, 0xd3ecf5726d81a493, Sum.inl "1"⟩⟩).getD 0
        (0, Except.error "") =
      (0xfe800000000000000000000000000001,
        format_client ⟨Sum.inl "2", [(0xfe800000000000000000000000000001, "1"),
            (0xfe800000000000000000000000000002, "1f")],
          some ⟨1, 0x8c9a3b1a2e, 0xd3ecf5726d81a493, Sum.inl "1"⟩⟩ "1") := by
  have h := statics_spec ⟨Sum.inl "2", [(0xfe800000000000000000000000000001, "1"),
      (0xfe800000000000000000000000000002, "1f")],
    some ⟨1, 0x8c9a3b1a2e, 0xd3ecf5726d81a493, Sum.inl "1"⟩⟩
    ⟨1, 0x8c9a3b1a2e, 0xd3ecf5726d81a493, Sum.inl "1"⟩ rfl
  exact ⟨h.1, h.2.1 0 (by norm_num)⟩

/-! ## C9: back-reference wiring -/

/-- An interface whose back-reference is set resolves its working subnet
through the owning config. -/
theorem with_prefix_iface_some (i : IfaceConfig) (c : ConfigCore)
    (h : i._parent = some c) :
    with_prefix_iface i = Except.bind (with_prefix_config c)
      (fun parent => config_suffix_append parent i.suffix) := by
  unfold with_prefix_iface
  rw [h]

/-- C9: when `Config.from_dict` succeeds, every interface in the returned
config has its back-reference set to the owning config, so its working
subnet is the allocator applied to the config's working subnet with the
interface's own suffix; an `IfaceConfig` built directly, with the
back-reference never assigned, fails with AttributeError on `with_prefix`,
on `format_client`, and on every resolved pair of `statics`. -/
theorem from_dict_parent_spec :
    (∀ raw cfg, Config.from_dict raw = Except.ok cfg →
      ∀ p ∈ cfg.ifaces, p.2._parent = some cfg.core ∧
        with_prefix_iface p.2 = Except.bind (with_prefix_config cfg.core)
          (fun parent => config_suffix_append parent p.2.suffix)) ∧
    (∀ sfx clients s,
      with_prefix_iface ⟨sfx, clients, none⟩ = Except.error "AttributeError" ∧
      format_client ⟨sfx, clients, none⟩ s = Except.error "AttributeError" ∧
      ∀ q ∈ statics ⟨sfx, clients, none⟩, q.2 = Except.error "AttributeError") := by
  constructor
  · intro raw cfg hok p hmem
    unfold Config.from_dict at hok
    split at hok
    · cases hn1 : pyIntHex raw.node_id with
      | error e => rw [hn1, ebind_error] at hok; cases hok
      | ok nodeVal =>
        rw [hn1, ebind_ok] at hok
        cases hn2 : FixedSizeUInt.new NodeID.size nodeVal with
        | error e => rw [hn2, ebind_error] at hok; cases hok
        | ok nid =>
          rw [hn2, ebind_ok] at hok
          cases hn3 : pyIntHex raw.network_id with
          | error e => rw [hn3, ebind_error] at hok; cases hok
          | ok netVal =>
            rw [hn3, ebind_ok] at hok
            cases hn4 : FixedSizeUInt.new NetworkID.size netVal with
            | error e => rw [hn4, ebind_error] at hok; cases hok
            | ok nwid =>
              rw [hn4, ebind_ok] at hok
              cases hok
              dsimp only at hmem
              obtain ⟨e, hel, hpe⟩ := List.mem_map.mp hmem
              have hparent : p.2._parent =
                  some ⟨raw.version, nid.toNat, nwid.toNat, raw.suffix⟩ := by
                rw [← hpe]
              exact ⟨hparent, with_prefix_iface_some p.2 _ hparent⟩
    · cases hok
  · intro sfx clients s
    refine ⟨rfl, rfl, fun q hq => ?_⟩
    obtain ⟨e, hel, hqe⟩ := List.mem_map.mp hq
    rw [← hqe]
    rfl

/-- Witness for C9 on a one-interface raw config. -/
theorem from_dict_parent_spec_witness :
    Config.from_dict ⟨1, "8c9a3b1a2e", "d3ecf5726d81a493", Sum.inl "1",
        [("eth0", ⟨Sum.inl "2", [(0xfe800000000000000000000000000001, "1")]⟩)]⟩ =
      Except.ok ⟨⟨1, 0x8c9a3b1a2e, 0xd3ecf5726d81a493, Sum.inl "1"⟩,
        [("eth0", ⟨Sum.inl "2", [(0xfe800000000000000000000000000001, "1")],
          some ⟨1, 0x8c9a3b1a2e, 0xd3ecf5726d81a493, Sum.inl "1"⟩⟩)]⟩ ∧
    (⟨Sum.inl "2", [(0xfe800000000000000000000000000001, "1")],
        some ⟨1, 0x8c9a3b1a2e, 0xd3ecf5726d81a493, Sum.inl "1"⟩⟩ : IfaceConfig)._parent =
      some ⟨1, 0x8c9a3b1a2e, 0xd3ecf5726d81a493, Sum.inl "1"⟩ ∧
    with_prefix_iface ⟨Sum.inl "0", [], none⟩ = Except.error "AttributeError" := by
  have hok : Config.from_dict ⟨1, "8c9a3b1a2e", "d3ecf5726d81a493", Sum.inl "1",
      [("eth0", ⟨Sum.inl "2", [(0xfe800000000000000000000000000001, "1")]⟩)]⟩ =
      Except.ok ⟨⟨1, 0x8c9a3b1a2e, 0xd3ecf5726d81a493, Sum.inl "1"⟩,
        [("eth0", ⟨Sum.inl "2", [(0xfe800000000000000000000000000001, "1")],
          some ⟨1, 0x8c9a3b1a2e, 0xd3ecf5726d81a493, Sum.inl "1"⟩⟩)]⟩ := by rfl
  have h := from_dict_parent_spec.1 _ _ hok
    ("eth0", ⟨Sum.inl "2", [(0xfe800000000000000000000000000001, "1")],
      some ⟨1, 0x8c9a3b1a2e, 0xd3ecf5726d81a493, Sum.inl "1"⟩⟩)
    (List.mem_singleton.mpr rfl)
  exact ⟨hok, h.1, (from_dict_parent_spec.2 (Sum.inl "0") [] "x").1⟩

end ZT
